import Mathlib

/-
  Verification of lib/blkid/devname.c (block-device name discovery layer).

  Shallow embedding notes:
  - The cache is modeled as a Lean structure; the C linked list of device
    records becomes `List Dev` (insertion order preserved, appends at tail).
  - A record pointer is modeled as an index into that list.
  - External collaborators (blkid_verify, blkid_read_cache, blkid_flush_cache,
    blkid_devno_to_devname, stat, the device-mapper ioctl queries, the text
    sources under /proc) live in an `Env` record of functions and data; the
    code under src/ is translated over that environment.
  - dev_t values are modeled as Nat with makedev packing major/minor
    injectively (major * 2^20 + minor, the kernel MKDEV layout).
  - Allocation failure (malloc/calloc/asprintf returning NULL) is not modeled;
    pointer nullness checks on arguments are likewise outside the model.
  - Each prober returns, besides the updated cache, the list of
    (name, devno, priority) triples it passed to probe_one, in call order.
    This trace is an exact projection: in the C code the set and order of
    probe_one invocations made by a prober depend only on the prober's own
    input text, never on the cache contents.
-/

/-- Modelled from the spec: reserved priority constant for software-RAID
names, from the repository's private header (not under src/). Only its
identity as a distinguished value matters. -/
def BLKID_PRI_MD : Int := 10

/-- Modelled from the spec: reserved priority for legacy volume-manager
volumes, from the repository's private header (not under src/). -/
def BLKID_PRI_LVM : Int := 20

/-- Modelled from the spec: reserved priority for volume-report lines, from
the repository's private header (not under src/). -/
def BLKID_PRI_EVMS : Int := 30

/-- Modelled from the spec: reserved priority for device-mapper devices, from
the repository's private header (not under src/). -/
def BLKID_PRI_DM : Int := 40

/-- Modelled from the spec: the freshness window (staleness guard interval,
seconds) from the repository's private header (not under src/). -/
def BLKID_PROBE_INTERVAL : Int := 200

/-- Modelled from the spec: error code for failure to open the mandatory
kernel partition report, from the repository's public header (not under
src/). Only its being nonzero matters. -/
def BLKID_ERR_PROC : Int := 9

/-- C INT_MIN, the "never verified" timestamp sentinel stored by
blkid_get_dev on freshly created records. -/
def INT_MIN : Int := -2147483648

/-- `makedev(ma, mi)`: dev_t values modeled as Nat, packed with the kernel
MKDEV layout (major shifted past a 20-bit minor). The probed claims use it
only as an injective identifier. -/
def makedev (ma mi : Nat) : Nat := ma * 1048576 + mi

/-- One cache record (`struct blkid_struct_dev`): device name, device
number, priority, last-verified time. The back-reference `bid_cache` is
represented by context (records live inside their cache's list). -/
structure Dev where
  bid_name : String
  bid_devno : Nat
  bid_pri : Int
  bid_time : Int
deriving Repr, DecidableEq

/-- The device cache (`struct blkid_struct_cache`): ordered record list plus
the CHANGED and PROBED bits of bic_flags (modeled as booleans) and the
last-full-probe time. -/
structure Cache where
  bic_devs : List Dev
  bic_time : Int
  bic_probed : Bool
  bic_changed : Bool
deriving Repr, DecidableEq

/-- Names-unique invariant of a cache: no two records share a device name. -/
def NamesNodup (c : Cache) : Prop :=
  (c.bic_devs.map Dev.bid_name).Nodup

instance : DecidablePred NamesNodup := fun c =>
  inferInstanceAs (Decidable ((c.bic_devs.map Dev.bid_name).Nodup))

/-- A line of the kernel partition report after the sscanf
`" %d %d %llu %128[^\n ]"`: `none` when the line does not yield the four
items (the C code then executes `continue`), otherwise (ma, mi, sz, name). -/
abbrev PLine := Option (Nat × Nat × Nat × String)

/-- A recorded probe_one invocation: (name, devno, priority hint). -/
abbrev ProbeInv := String × Nat × Int

/-- One logical-volume metadata file of the legacy volume manager:
file name and its text lines (`none` when fopen fails). -/
structure LV where
  name : String
  file : Option (List String)
deriving Repr, DecidableEq

/-- One volume-group directory: its name and the entries of its "LVs"
subdirectory (`none` when opendir fails). -/
structure VG where
  name : String
  lvs : Option (List LV)
deriving Repr, DecidableEq

/-- The environment of external collaborators and input sources consumed by
devname.c. Functions model code of this repository that is not under src/
(blkid_verify, blkid_read_cache, blkid_flush_cache, blkid_devno_to_devname,
blkid_devdirs) following the spec's contracts, plus the operating-system
surfaces (stat, device-mapper queries, the /proc text sources). -/
structure Env where
  /-- time(0) at this pass. -/
  now : Int
  /-- Device-mapper device names as enumerated by DM_DEVICE_LIST. -/
  dmNames : List String
  /-- Dependency device numbers of a mapper device (empty when it does not
  exist or has no deps), as queried by DM_DEVICE_DEPS. -/
  dmDeps : String → List Nat
  /-- Live device number of a mapper device, 0 when it does not exist
  (DM_DEVICE_INFO / makedev of its major:minor). -/
  dmDevno : String → Nat
  /-- Modelled from the spec: `blkid_verify(cache, dev)` re-checks a record
  (given by index) against live state; may mutate the cache, delete or
  replace the record; returns the surviving record's index, if any. -/
  verify : Cache → Nat → Cache × Option Nat
  /-- stat(path): `some rdev` when the path exists and is a block device
  with that raw device number, `none` otherwise. -/
  statBlkRdev : String → Option Nat
  /-- Modelled from the spec: `blkid_devno_to_devname`, the exhaustive
  last-resort devno-to-name search (code not under src/). -/
  devnoToDevname : Nat → Option String
  /-- Modelled from the spec: `blkid_devdirs`, the ordered list of
  conventional device-node directories (code not under src/). -/
  devdirs : List String
  /-- Modelled from the spec: `blkid_read_cache`, loads the persisted cache
  (code not under src/); load failure is non-fatal, so it is total. -/
  readCache : Cache → Cache
  /-- Modelled from the spec: `blkid_flush_cache` (code not under src/). -/
  flushCache : Cache → Cache
  /-- /proc/evms/volumes as raw text lines (without the terminating
  newline), `none` when the file cannot be opened. -/
  evmsLines : Option (List String)
  /-- /proc/lvm/VGs directory tree, `none` when opendir fails. -/
  lvmVGs : Option (List VG)
  /-- /proc/partitions, `none` when fopen fails (the only fatal source). -/
  procLines : Option (List PLine)

/-- Does `s` begin with `pre`? (Models strncmp(s, pre, strlen(pre)) == 0
for NUL-free C strings; written over the character lists so that it
evaluates by kernel reduction.) -/
def str_starts (s pre : String) : Bool :=
  pre.data.isPrefixOf s.data

/-- Linear scan returning the index of the first element satisfying `p`;
models walking the cache's record list with a pointer. -/
def find_idx (p : Dev → Bool) : List Dev → Option Nat
  | [] => none
  | d :: rest => if p d then some 0 else (find_idx p rest).map (· + 1)

/-- Index of the first cache record whose name equals `n` (the scan at the
top of blkid_get_dev, devname.c lines 59-68). -/
def find_by_name (c : Cache) (n : String) : Option Nat :=
  find_idx (fun d => d.bid_name == n) c.bic_devs

/-- `blkid_get_dev` (devname.c lines 51-84): find a record by name; when
absent and the CREATE flag is set, append a fresh record (devno unset,
time INT_MIN) and mark the cache changed; when the VERIFY flag is set, pass
the result through the external verify collaborator (which given no record
returns none). The FIND/CREATE/VERIFY flag bits are modeled as the booleans
`create` and `verify` (BLKID_DEV_NORMAL = both set, BLKID_DEV_FIND =
neither), following the spec's contract for the missing public header. -/
def blkid_get_dev (env : Env) (c : Cache) (devname : String)
    (create verify : Bool) : Cache × Option Nat :=
  let step : Cache × Option Nat :=
    match find_by_name c devname with
    | some i => (c, some i)
    | none =>
      if create then
        ({ c with
            bic_devs := c.bic_devs ++ [⟨devname, 0, 0, INT_MIN⟩],
            bic_changed := true },
         some c.bic_devs.length)
      else (c, none)
  if verify then
    match step.2 with
    | some i => env.verify step.1 i
    | none => (step.1, none)
  else step

/-- `dm_device_has_dep` (devname.c lines 168-205): does mapper device
`name`'s dependency list contain `dev`? -/
def dm_device_has_dep (env : Env) (dev : Nat) (name : String) : Bool :=
  (env.dmDeps name).contains dev

/-- `dm_device_is_leaf` (devname.c lines 207-240): walk every currently
listed mapper device; `dev` is a leaf unless some listed device depends on
it (an empty listing yields leaf). -/
def dm_device_is_leaf (env : Env) (dev : Nat) : Bool :=
  env.dmNames.all (fun name => ! dm_device_has_dep env dev name)

/-- The cache scan at the top of probe_one (devname.c lines 101-115):
walk the record list; on each iteration, when device-mapper support is
compiled in, `continue` unless `dm_device_is_leaf(devno)` holds; otherwise
compare the record's devno against the probed devno and stop at the first
match, returning its index. The build without device-mapper support is the
special case of an environment with an empty mapper listing (the leaf test
is then constantly true). -/
def scan_devs (env : Env) (devno : Nat) : List Dev → Option Nat
  | [] => none
  | d :: rest =>
    if ! dm_device_is_leaf env devno then (scan_devs env devno rest).map (· + 1)
    else if d.bid_devno == devno then some 0
    else (scan_devs env devno rest).map (· + 1)

/-- The same scan as the specification words it, for comparison with
`scan_devs`: the leaf test applied to the candidate record's own device
number before its device number is compared. -/
def scan_devs_claim (env : Env) (devno : Nat) : List Dev → Option Nat
  | [] => none
  | d :: rest =>
    if ! dm_device_is_leaf env d.bid_devno then
      (scan_devs_claim env devno rest).map (· + 1)
    else if d.bid_devno == devno then some 0
    else (scan_devs_claim env devno rest).map (· + 1)

/-- Result of the device-directory loop of probe_one (devname.c lines
125-139): an already-cached record with matching devno was adopted
(`found`), a path stat-ed as the right block device (`path`), or neither
(`nopath`). -/
inductive DirScan where
  | found (i : Nat)
  | path (devname : String)
  | nopath
deriving Repr, DecidableEq

/-- The device-directory loop of probe_one (devname.c lines 125-139): for
each directory, build `<dir>/<ptname>`; adopt a cached record for that exact
path when its devno matches; else stat the path and stop when it is a block
device with the probed devno. -/
def dir_scan (env : Env) (c : Cache) (ptname : String) (devno : Nat) :
    List String → DirScan
  | [] => .nopath
  | dir :: rest =>
    let device := dir ++ "/" ++ ptname
    match find_by_name c device with
    | some i =>
      if (c.bic_devs[i]?.map Dev.bid_devno) == some devno then .found i
      else if env.statBlkRdev device == some devno then .path device
      else dir_scan env c ptname devno rest
    | none =>
      if env.statBlkRdev device == some devno then .path device
      else dir_scan env c ptname devno rest

/-- Control outcome of probe_one before the set_pri epilogue: an early
`return` (devname.c lines 111 and 143), or arrival at the `set_pri` label
with the cache as mutated so far and the chosen record, if any. -/
inductive POutcome where
  | early (c : Cache)
  | setpri (c : Cache) (dev : Option Nat)
deriving Repr, DecidableEq

/-- The name-resolution path of probe_one after the devno scan found
nothing usable (devname.c lines 125-146): the directory loop, then the
exhaustive devno-to-name search, then blkid_get_dev with BLKID_DEV_NORMAL;
when even the exhaustive search fails the function returns with no record. -/
def resolve_path (env : Env) (c : Cache) (ptname : String) (devno : Nat) :
    POutcome :=
  match dir_scan env c ptname devno env.devdirs with
  | .found i => .setpri c (some i)
  | .path devname =>
    let r := blkid_get_dev env c devname true true
    .setpri r.1 r.2
  | .nopath =>
    match env.devnoToDevname devno with
    | none => .early c
    | some devname =>
      let r := blkid_get_dev env c devname true true
      .setpri r.1 r.2

/-- probe_one up to the set_pri label (devname.c lines 93-146): scan the
cache for the devno (with the leaf filter); on a match return immediately
when only_if_new, else verify the matched record and keep it when its devno
still matches; otherwise resolve a name via the directory loop or the
exhaustive search. -/
def probe_one_core (env : Env) (c : Cache) (ptname : String) (devno : Nat)
    (oin : Bool) : POutcome :=
  match scan_devs env devno c.bic_devs with
  | some i =>
    if oin then .early c
    else
      let r := env.verify c i
      match r.2 with
      | some j =>
        if (r.1.bic_devs[j]?.map Dev.bid_devno) == some devno then
          .setpri r.1 (some j)
        else resolve_path env r.1 ptname devno
      | none => resolve_path env r.1 ptname devno
  | none => resolve_path env c ptname devno

/-- The set_pri epilogue of probe_one (devname.c lines 148-153): when the
hint is zero and the short name begins with "md", use the reserved RAID
priority; store the value on the chosen record when one exists. -/
def set_pri_apply (c : Cache) (o : Option Nat) (ptname : String) (pri : Int) :
    Cache :=
  let p := if pri == 0 && str_starts ptname "md" then BLKID_PRI_MD else pri
  match o with
  | none => c
  | some i =>
    match c.bic_devs[i]? with
    | some d => { c with bic_devs := c.bic_devs.set i { d with bid_pri := p } }
    | none => c

/-- `probe_one` (devname.c lines 93-154). -/
def probe_one (env : Env) (c : Cache) (ptname : String) (devno : Nat)
    (pri : Int) (oin : Bool) : Cache :=
  match probe_one_core env c ptname devno oin with
  | .early c1 => c1
  | .setpri c1 o => set_pri_apply c1 o ptname pri

/-- `dm_probe_all`'s per-name loop (devname.c lines 288-312): for each
enumerated mapper name build "mapper/<name>", query its device number, skip
it when absent (0) or not a leaf, else probe it with the reserved
device-mapper priority. Returns the updated cache and the invocation
trace. -/
def dm_run (env : Env) (oin : Bool) : List String → Cache → Cache × List ProbeInv
  | [], c => (c, [])
  | name :: rest, c =>
    let device := "mapper/" ++ name
    let dev := env.dmDevno name
    if dev == 0 then dm_run env oin rest c
    else if ! dm_device_is_leaf env dev then dm_run env oin rest c
    else
      let c1 := probe_one env c device dev BLKID_PRI_DM oin
      let r := dm_run env oin rest c1
      (r.1, (device, dev, BLKID_PRI_DM) :: r.2)

/-- `dm_probe_all` (devname.c lines 268-315). -/
def dm_probe_all (env : Env) (c : Cache) (oin : Bool) : Cache × List ProbeInv :=
  dm_run env oin env.dmNames c

/-- Longest leading run of decimal digits of a character list, with the
remainder. -/
def takeDigits : List Char → List Char × List Char
  | [] => ([], [])
  | ch :: rest =>
    if ch.isDigit then
      let r := takeDigits rest
      (ch :: r.1, r.2)
    else ([], ch :: rest)

/-- Decimal value of a digit list. -/
def digitsToNat (ds : List Char) : Nat :=
  ds.foldl (fun acc ch => acc * 10 + (ch.toNat - 48)) 0

/-- `%d` on a character list (nonnegative form): at least one digit,
returning the value and the remainder. -/
def parseNatPrefix (cs : List Char) : Option (Nat × List Char) :=
  let r := takeDigits cs
  if r.1.isEmpty then none else some (digitsToNat r.1, r.2)

/-- C isspace: the six whitespace characters that scanf blank directives
and the implicit skips of %d and %s consume, and at which a %s field
stops. -/
def cIsSpace (c : Char) : Bool :=
  c = ' ' || c = '\t' || c = '\n' || c = '\x0b' || c = '\x0c' || c = '\r'

/-- A blank in a scanf format (also the implicit whitespace skip of the
%d and %s conversions): drop any leading whitespace. -/
def skipWs (cs : List Char) : List Char := cs.dropWhile cIsSpace

/-- A `%d` conversion body, after its whitespace skip: an optional sign
followed by at least one digit, stopping at the first non-digit — it need
not consume a whole whitespace-delimited token; it fails when no digit
follows, also at end of input. Out-of-range values are read exactly (the
C conversion's overflow behavior is not modeled). -/
def parseIntPrefix : List Char → Option (Int × List Char)
  | [] => none
  | c :: rest =>
    if c = '-' then (parseNatPrefix rest).map (fun r => (-(r.1 : Int), r.2))
    else if c = '+' then (parseNatPrefix rest).map (fun r => ((r.1 : Int), r.2))
    else (parseNatPrefix (c :: rest)).map (fun r => ((r.1 : Int), r.2))

/-- The characters a `%[^\n ]` scanset accepts: everything except newline
and space (tabs included). -/
def scanOk (c : Char) : Bool := !(c = '\n' || c = ' ')

/-- makedev applied to the ints read by sscanf: each component first goes
through the C conversion to an unsigned 64-bit integer (reduction mod
2^64), then the pair is packed by `makedev`. -/
def makedevZ (ma mi : Int) : Nat :=
  makedev (ma % 18446744073709551616).toNat (mi % 18446744073709551616).toNat

/-- The sscanf `" %d %d %d %*s %*s %[^\n ]"` of evms_probe_all (devname.c
lines 430-431), modeled directive by directive over the raw line: three
integer conversions (each skipping whitespace, then an optional sign and
at least one digit, stopping at the first non-digit); two suppressed %*s
conversions, each skipping whitespace and consuming a maximal nonempty
run of non-whitespace characters (failing at end of input); then the
format blank skips whitespace and the scanset captures a maximal nonempty
run of characters other than newline and space as the device field. The
call returns 4 — the line is accepted — exactly when all of these
succeed; trailing input is never required to be consumed. -/
def evms_parse_line (line : String) : Option (Int × Int × Int × String) :=
  match parseIntPrefix (skipWs line.data) with
  | none => none
  | some (ma, cs1) =>
    match parseIntPrefix (skipWs cs1) with
    | none => none
    | some (mi, cs2) =>
      match parseIntPrefix (skipWs cs2) with
      | none => none
      | some (sz, cs3) =>
        let cs4 := skipWs cs3
        if cs4.isEmpty then none
        else
          let cs5 := skipWs (cs4.dropWhile (fun c => ! cIsSpace c))
          if cs5.isEmpty then none
          else
            let cs6 := skipWs (cs5.dropWhile (fun c => ! cIsSpace c))
            let dev := cs6.takeWhile scanOk
            if dev.isEmpty then none
            else some (ma, mi, sz, dev.asString)

/-- The per-line loop of evms_probe_all (devname.c lines 429-440): lines
failing the sscanf are skipped; each accepted line is probed as
(device, makedev ma mi) with the reserved volume-report priority. -/
def evms_run (env : Env) (oin : Bool) : List String → Cache → Cache × List ProbeInv
  | [], c => (c, [])
  | line :: rest, c =>
    match evms_parse_line line with
    | none => evms_run env oin rest c
    | some q =>
      let c1 := probe_one env c q.2.2.2 (makedevZ q.1 q.2.1) BLKID_PRI_EVMS oin
      let r := evms_run env oin rest c1
      (r.1, (q.2.2.2, makedevZ q.1 q.2.1, BLKID_PRI_EVMS) :: r.2)

/-- `evms_probe_all` (devname.c lines 418-443); a missing report file
contributes nothing. -/
def evms_probe_all (env : Env) (c : Cache) (oin : Bool) : Cache × List ProbeInv :=
  match env.evmsLines with
  | none => (c, [])
  | some lss => evms_run env oin lss c

/-- The sscanf `"device: %d:%d"` applied to one line of a logical-volume
metadata file (devname.c line 344): the line must begin with the literal
`device:`, then whitespace is skipped (format blank and %d both skip it), a
number is read, a literal `:` must follow immediately, and a second number
is read (whitespace allowed after the colon by %d); trailing text is
ignored. Returns (major, minor) on success. -/
def parse_lvm_device_line (s : String) : Option (Nat × Nat) :=
  if str_starts s "device:" then
    let cs := (s.data.drop 7).dropWhile Char.isWhitespace
    match parseNatPrefix cs with
    | some r =>
      match r.2 with
      | ch :: rest2 =>
        if ch = ':' then
          match parseNatPrefix (rest2.dropWhile Char.isWhitespace) with
          | some r2 => some (r.1, r2.1)
          | none => none
        else none
      | [] => none
    | none => none
  else none

/-- `lvm_get_devno` (devname.c lines 329-352): scan the metadata file for
the first line matching `device: %d:%d` and return makedev of it; an
unreadable file or no matching line yields 0. -/
def lvm_get_devno : Option (List String) → Nat
  | none => 0
  | some lines =>
    match lines.findSome? parse_lvm_device_line with
    | some r => makedev r.1 r.2
    | none => 0

/-- The inner logical-volume loop of lvm_probe_all (devname.c lines
385-408): skip the self/parent entries, compute the device number from the
metadata file, and probe `<group>/<volume>` with the reserved
legacy-volume priority (the device number is passed through even when it
is 0). -/
def lvm_lv_run (env : Env) (oin : Bool) (vgname : String) :
    List LV → Cache → Cache × List ProbeInv
  | [], c => (c, [])
  | lv :: rest, c =>
    if lv.name == "." || lv.name == ".." then lvm_lv_run env oin vgname rest c
    else
      let dev := lvm_get_devno lv.file
      let lvname := vgname ++ "/" ++ lv.name
      let c1 := probe_one env c lvname dev BLKID_PRI_LVM oin
      let r := lvm_lv_run env oin vgname rest c1
      (r.1, (lvname, dev, BLKID_PRI_LVM) :: r.2)

/-- The outer volume-group loop of lvm_probe_all (devname.c lines 366-410):
skip the self/parent entries and groups whose "LVs" subdirectory cannot be
opened. -/
def lvm_vg_run (env : Env) (oin : Bool) : List VG → Cache → Cache × List ProbeInv
  | [], c => (c, [])
  | vg :: rest, c =>
    if vg.name == "." || vg.name == ".." then lvm_vg_run env oin rest c
    else
      match vg.lvs with
      | none => lvm_vg_run env oin rest c
      | some lvs =>
        let r1 := lvm_lv_run env oin vg.name lvs c
        let r2 := lvm_vg_run env oin rest r1.1
        (r2.1, r1.2 ++ r2.2)

/-- `lvm_probe_all` (devname.c lines 354-413); a missing root directory
contributes nothing. -/
def lvm_probe_all (env : Env) (c : Cache) (oin : Bool) : Cache × List ProbeInv :=
  match env.lvmVGs with
  | none => (c, [])
  | some vgs => lvm_vg_run env oin vgs c

/-- Does the name end in a decimal digit (the `isdigit(ptname[len - 1])`
heuristic, devname.c line 507)? A successful `%128[^\n ]` conversion is
never empty, so the last character exists on every parsed line. -/
def digitEnding (s : String) : Bool :=
  match s.data.getLast? with
  | some ch => ch.isDigit
  | none => false

/-- `strncmp(a, b, n) == 0` for NUL-free C strings: the first n characters
agree (comparison stops early at the end of either string). -/
def strncmp0 (a b : String) (n : Nat) : Bool :=
  a.data.take n == b.data.take n

/-- One of the two line buffers of probe_all's partition loop: the name
(ptnames[i]), the device number (devs[i]) and the recorded length
(lens[i]). -/
structure Slot where
  name : String
  dev : Nat
  len : Nat
deriving Repr, DecidableEq

/-- The loop state of probe_all's partition scan (devname.c lines 452-458):
the two alternating slots and the `which` toggle. The C arrays start
uninitialized; they are never read before being written because a read is
always guarded by a nonzero lens entry, so zero/empty initial values are
inert. -/
structure PTState where
  s0 : Slot
  s1 : Slot
  which : Bool
deriving Repr, DecidableEq

/-- Slot selected by an index bit. -/
def PTState.slot (st : PTState) (b : Bool) : Slot :=
  if b then st.s1 else st.s0

/-- Replace the slot selected by an index bit. -/
def PTState.setSlot (st : PTState) (b : Bool) (s : Slot) : PTState :=
  if b then { st with s1 := s } else { st with s0 := s }

/-- Overwrite lens[b]. -/
def PTState.setLen (st : PTState) (b : Bool) (n : Nat) : PTState :=
  if b then { st with s1 := { st.s1 with len := n } }
  else { st with s0 := { st.s0 with len := n } }

/-- Initial loop state: which = 0, both lens = 0. -/
def pt_init : PTState :=
  { s0 := ⟨"", 0, 0⟩, s1 := ⟨"", 0, 0⟩, which := false }

/-- One iteration of probe_all's partition loop (devname.c lines 483-526).
`last` and `which` swap first; a line failing the sscanf leaves the slots
untouched (`continue`, with the toggle already done). On a parsed line the
current slot receives name, devno and length; a digit-ending name is probed
when its size exceeds 1 and both lens are cleared; otherwise, when the
previous slot is pending and its name is not a leading part of the current
name (strncmp over the pending length), the pending whole disk is probed
and its lens cleared. -/
def pt_step (st : PTState) (l : PLine) : PTState × List ProbeInv :=
  let w := !st.which
  let la := st.which
  match l with
  | none => ({ st with which := w }, [])
  | some q =>
    let pt := q.2.2.2
    let devno := makedev q.1 q.2.1
    let st1 := PTState.setSlot { st with which := w } w ⟨pt, devno, pt.length⟩
    if digitEnding pt then
      (PTState.setLen (PTState.setLen st1 w 0) la 0,
       if 1 < q.2.2.1 then [(pt, devno, (0 : Int))] else [])
    else
      let pending := PTState.slot st1 la
      if pending.len != 0 && ! strncmp0 pending.name pt pending.len then
        (PTState.setLen st1 la 0, [(pending.name, pending.dev, (0 : Int))])
      else (st1, [])

/-- The partition loop over all report lines, threading the cache through
probe_one for each emitted invocation. -/
def pt_run (env : Env) (oin : Bool) :
    List PLine → Cache → PTState → Cache × PTState × List ProbeInv
  | [], c, st => (c, st, [])
  | l :: rest, c, st =>
    let s := pt_step st l
    let c1 := s.2.foldl (fun cc inv => probe_one env cc inv.1 inv.2.1 inv.2.2 oin) c
    let r := pt_run env oin rest c1 s.1
    (r.1, r.2.1, s.2 ++ r.2.2)

/-- The trailing-device check after the loop (devname.c lines 528-530):
when the slot selected by the final `which` is still pending, it is probed
as a whole disk. -/
def pt_finish (st : PTState) : Option ProbeInv :=
  let s := st.slot st.which
  if s.len != 0 then some (s.name, s.dev, (0 : Int)) else none

/-- The whole partition-table prober: the loop plus the trailing-device
probe (devname.c lines 483-530). -/
def pt_prober (env : Env) (c : Cache) (oin : Bool) (ls : List PLine) :
    Cache × List ProbeInv :=
  let r := pt_run env oin ls c pt_init
  match pt_finish r.2.1 with
  | some inv => (probe_one env r.1 inv.1 inv.2.1 inv.2.2 oin, r.2.2 ++ [inv])
  | none => (r.1, r.2.2)

/-- `probe_all` (devname.c lines 448-535): the staleness guard, the cache
load, the optional probers in their fixed order, then the mandatory
partition report (whose absence aborts the pass with the proc error and no
flush), and the final flush. Returns the cache, the return code, and the
concatenated invocation trace. The guard's time(0) and the stamping
time(0) of the caller are the same `env.now` (one pass, same second). -/
def probe_all (env : Env) (c : Cache) (oin : Bool) :
    Cache × Int × List ProbeInv :=
  if c.bic_probed = true ∧ env.now - c.bic_time < BLKID_PROBE_INTERVAL then
    (c, 0, [])
  else
    let c0 := env.readCache c
    let r1 := dm_probe_all env c0 oin
    let r2 := evms_probe_all env r1.1 oin
    let r3 := lvm_probe_all env r2.1 oin
    match env.procLines with
    | none => (r3.1, -BLKID_ERR_PROC, r1.2 ++ r2.2 ++ r3.2)
    | some ls =>
      let r4 := pt_prober env r3.1 oin ls
      (env.flushCache r4.1, 0, r1.2 ++ r2.2 ++ r3.2 ++ r4.2)

/-- `blkid_probe_all` (devname.c lines 537-547): run the pass with
only_if_new = 0, then stamp the cache's time and PROBED flag regardless of
the pass's return code. -/
def blkid_probe_all (env : Env) (c : Cache) : Cache × Int × List ProbeInv :=
  let r := probe_all env c false
  ({ r.1 with bic_time := env.now, bic_probed := true }, r.2.1, r.2.2)

/-- `blkid_probe_all_new` (devname.c lines 549-557): run the pass with
only_if_new = 1; no stamping. -/
def blkid_probe_all_new (env : Env) (c : Cache) : Cache × Int × List ProbeInv :=
  probe_all env c true

/-- A trivial environment: no mapper devices, no optional sources, an
identity verify collaborator, no device directories, failing stat and
exhaustive search. Used to instantiate universally quantified theorems. -/
def envTriv : Env :=
  { now := 0
    dmNames := []
    dmDeps := fun _ => []
    dmDevno := fun _ => 0
    verify := fun c i => (c, some i)
    statBlkRdev := fun _ => none
    devnoToDevname := fun _ => none
    devdirs := []
    readCache := id
    flushCache := id
    evmsLines := none
    lvmVGs := none
    procLines := none }

/-- The empty cache. -/
def emptyCache : Cache :=
  { bic_devs := [], bic_time := 0, bic_probed := false, bic_changed := false }

/-- Fixture for the staleness-guard claims: a partition report with one
whole-disk line, current time 150. -/
def envC1 : Env :=
  { envTriv with now := 150, procLines := some [some (8, 16, 2000, "sdb")] }

/-- A cache fully probed at time 100 (within the freshness window of
envC1's time 150). -/
def cacheC1 : Cache :=
  { bic_devs := [], bic_time := 100, bic_probed := true, bic_changed := false }

/-- The literal partition-report fixture of the partitioned-disk claim. -/
def fixtureC2 : List PLine :=
  [some (8, 0, 1000, "sda"), some (8, 1, 500, "sda1"), some (8, 2, 499, "sda2")]

/-- An environment whose mapper listing makes device number 5 a non-leaf
(device "dm-x" depends on it), with "/dev" as the only device directory. -/
def envC6 : Env :=
  { envTriv with dmNames := ["dm-x"], dmDeps := fun _ => [5], devdirs := ["/dev"] }

/-- A cache holding one record for /dev/mapper/foo with device number 5 and
priority 3. -/
def cacheC6 : Cache :=
  { bic_devs := [⟨"/dev/mapper/foo", 5, 3, 0⟩],
    bic_time := 0, bic_probed := false, bic_changed := false }

/-- A cache holding one record with device number 5 (for the only_if_new
frame witness). -/
def cacheW6 : Cache :=
  { bic_devs := [⟨"/dev/sda", 5, 0, 0⟩],
    bic_time := 0, bic_probed := false, bic_changed := false }

/-- Environment for the RAID-priority runs: /dev is the only directory and
/dev/md0 stats as a block device with raw device number 9. -/
def envMd : Env :=
  { envTriv with
      devdirs := ["/dev"],
      statBlkRdev := fun s => if s == "/dev/md0" then some 9 else none }

/-- The cache state at the set_pri label in the envMd run from the empty
cache: the freshly created record for /dev/md0 (devno unset, never
verified), cache marked changed. -/
def cacheMd1 : Cache :=
  { bic_devs := [⟨"/dev/md0", 0, 0, INT_MIN⟩],
    bic_time := 0, bic_probed := false, bic_changed := true }

/-- A one-record cache for the lookup/create witness. -/
def cacheC8 : Cache :=
  { bic_devs := [⟨"/dev/sda", 2048, 0, 37⟩],
    bic_time := 0, bic_probed := false, bic_changed := false }

/-- Legacy volume-manager fixture: one group, one volume whose metadata
file has no `device:` line. -/
def envC4 : Env :=
  { envTriv with lvmVGs := some [⟨"vg0", some [⟨"lv0", some ["junk"]⟩]⟩] }

/-- Volume-report fixture: a seven-token line, a five-token line whose
third token is only partly numeric, and a six-token line whose third
token is "12.5". -/
def envC9 : Env :=
  { envTriv with
      evmsLines := some
        ["8 1 100 a b /dev/evms/v extra",
         "8 1 100abc a /dev/x",
         "8 1 12.5 a b /dev/x"] }

/-- Environment with no readable partition report, current time 50. -/
def envC10 : Env := { envTriv with now := 50 }

/-- The same environment 10 seconds later (within the freshness window). -/
def envC10b : Env := { envTriv with now := 60 }

/-- Setting index i leaves reading index i as a map of the old value. -/
theorem getElem?_set_self_map {α : Type} (l : List α) (i : Nat) (x : α) :
    (l.set i x)[i]? = (l[i]?).map (fun _ => x) := by
  induction l generalizing i with
  | nil => simp
  | cons a rest ih =>
    cases i with
    | zero => simp
    | succ j => simpa using ih j

/-- Claim C2: on the partition report consisting exactly of the lines
(8,0,1000,"sda"), (8,1,500,"sda1"), (8,2,499,"sda2") in that order, the
partition-table prober invokes probe_one exactly for sda1 and then sda2,
each with a zero priority hint — and in particular never for sda. -/
theorem pt_fixture_partitioned_disk : ∀ (env : Env) (c : Cache) (oin : Bool),
    (pt_prober env c oin fixtureC2).2
      = [("sda1", makedev 8 1, 0), ("sda2", makedev 8 2, 0)] :=
  fun _ _ _ => rfl

/-- Claim C7: a partition-report line whose name ends in a decimal digit
and whose size field is exactly 1 (an extended/container partition) emits
no probe_one invocation, whatever the loop state produced by the
surrounding lines. -/
theorem pt_extended_skip : ∀ (st : PTState) (ma mi : Nat) (name : String),
    digitEnding name = true →
    (pt_step st (some (ma, mi, 1, name))).2 = [] := by
  intro st ma mi name h
  simp [pt_step, h]

/-- Witness for pt_extended_skip at the spec's literal extended-partition
fixture (8,5,1,"sda5"). -/
theorem pt_extended_skip_witness :
    digitEnding "sda5" = true ∧ (pt_step pt_init (some (8, 5, 1, "sda5"))).2 = [] :=
  ⟨rfl, pt_extended_skip pt_init 8 5 "sda5" rfl⟩

/-- Claim C3: the devno scan at the top of probe_one behaves exactly as if
the leaf test were applied to each candidate record being examined (the
two scans agree on every cache and query), and any match it returns is a
record whose device number equals the query and is currently a leaf — so a
stale non-leaf cache entry never short-circuits resolution. -/
theorem scan_devs_leaf_filter : ∀ (env : Env) (devno : Nat) (l : List Dev),
    scan_devs env devno l = scan_devs_claim env devno l
  ∧ (∀ j, scan_devs env devno l = some j →
      ∃ d, l[j]? = some d ∧ d.bid_devno = devno ∧
        dm_device_is_leaf env d.bid_devno = true) := by
  intro env devno l
  induction l with
  | nil => exact ⟨rfl, fun j h => by simp [scan_devs] at h⟩
  | cons d rest ih =>
    obtain ⟨ih1, ih2⟩ := ih
    by_cases hd : (d.bid_devno == devno) = true
    · have hdd : d.bid_devno = devno := by exact beq_iff_eq.mp hd
      constructor
      · cases hL : dm_device_is_leaf env devno with
        | true =>
          rw [scan_devs, scan_devs_claim, hdd, hL]
          simp [hd]
        | false =>
          rw [scan_devs, scan_devs_claim, hdd, hL]
          simp [ih1]
      · intro j hj
        cases hL : dm_device_is_leaf env devno with
        | true =>
          rw [scan_devs, hL] at hj
          simp [hd] at hj
          subst hj
          exact ⟨d, by simp, hdd, by rw [hdd]; exact hL⟩
        | false =>
          rw [scan_devs, hL] at hj
          simp at hj
          obtain ⟨j0, hj0, hjeq⟩ := hj
          obtain ⟨d0, hget, hdev, hleaf⟩ := ih2 j0 hj0
          exact ⟨d0, by simpa [← hjeq] using hget, hdev, hleaf⟩
    · constructor
      · cases hL : dm_device_is_leaf env devno with
        | true =>
          rw [scan_devs, scan_devs_claim, hL]
          cases hL2 : dm_device_is_leaf env d.bid_devno <;> simp [hd, ih1]
        | false =>
          rw [scan_devs, scan_devs_claim, hL]
          cases hL2 : dm_device_is_leaf env d.bid_devno <;> simp [hd, ih1]
      · intro j hj
        have hj' : ∃ j0, scan_devs env devno rest = some j0 ∧ j0 + 1 = j := by
          cases hL : dm_device_is_leaf env devno with
          | true => rw [scan_devs, hL] at hj; simpa [hd] using hj
          | false => rw [scan_devs, hL] at hj; simpa using hj
        obtain ⟨j0, hj0, hjeq⟩ := hj'
        obtain ⟨d0, hget, hdev, hleaf⟩ := ih2 j0 hj0
        exact ⟨d0, by simpa [← hjeq] using hget, hdev, hleaf⟩

/-- Witness for scan_devs_leaf_filter: a concrete scan that returns a
match, with the instantiated conclusion. -/
theorem scan_devs_leaf_filter_witness :
    scan_devs envTriv 5 [⟨"/dev/sda", 5, 0, 0⟩] = some 0 ∧
    ∃ d, ([(⟨"/dev/sda", 5, 0, 0⟩ : Dev)])[0]? = some d ∧ d.bid_devno = 5 ∧
      dm_device_is_leaf envTriv d.bid_devno = true :=
  ⟨rfl, (scan_devs_leaf_filter envTriv 5 [⟨"/dev/sda", 5, 0, 0⟩]).2 0 rfl⟩

/-- When the probed devno is currently a leaf and some cache record carries
it, the scan finds a match. -/
theorem scan_devs_mem_isSome : ∀ (env : Env) (devno : Nat) (l : List Dev),
    dm_device_is_leaf env devno = true →
    (∃ d ∈ l, d.bid_devno = devno) →
    (scan_devs env devno l).isSome = true := by
  intro env devno l hL hm
  induction l with
  | nil => simp at hm
  | cons d rest ih =>
    rw [scan_devs, hL]
    simp only [Bool.not_true, Bool.false_eq_true, if_false]
    by_cases hd : (d.bid_devno == devno) = true
    · simp [hd]
    · have : ∃ d0 ∈ rest, d0.bid_devno = devno := by
        obtain ⟨d0, hd0, hdev⟩ := hm
        rw [List.mem_cons] at hd0
        rcases hd0 with h | h
        · subst h; exact absurd (beq_iff_eq.mpr hdev) hd
        · exact ⟨d0, h, hdev⟩
      have := ih this
      simp [hd]
      cases hs : scan_devs env devno rest with
      | none => rw [hs] at this; simp at this
      | some j => simp

/-- Claim C6 (amended): when the probed device number is currently a leaf
mapper device — in particular always in a build without device-mapper
support, whose scan has no leaf filter — a probe_one call with only_if_new
on a cache that already holds a record with that device number returns
immediately and leaves the whole cache unchanged: no priority mutation, no
new record. -/
theorem probe_one_only_if_new_frame : ∀ (env : Env) (c : Cache) (pt : String)
    (devno : Nat) (pri : Int),
    dm_device_is_leaf env devno = true →
    (∃ d ∈ c.bic_devs, d.bid_devno = devno) →
    probe_one env c pt devno pri true = c := by
  intro env c pt devno pri hL hm
  have h := scan_devs_mem_isSome env devno c.bic_devs hL hm
  rw [probe_one, probe_one_core]
  cases hs : scan_devs env devno c.bic_devs with
  | none => rw [hs] at h; simp at h
  | some i => simp

/-- Witness for probe_one_only_if_new_frame at a concrete cache holding
device number 5. -/
theorem probe_one_only_if_new_frame_witness :
    dm_device_is_leaf envTriv 5 = true ∧
    (∃ d ∈ cacheW6.bic_devs, d.bid_devno = 5) ∧
    probe_one envTriv cacheW6 "sda" 5 9 true = cacheW6 :=
  ⟨rfl, by decide,
   probe_one_only_if_new_frame envTriv cacheW6 "sda" 5 9 rfl (by decide)⟩

/-- Counterexample to claim C6 as stated: with device-mapper support
compiled in and device number 5 currently a non-leaf, the cache record for
/dev/mapper/foo (devno 5, priority 3) is skipped by the scan, and the
only_if_new call does not return immediately: the directory loop adopts
that very record and overwrites its priority with the differing hint 7. -/
theorem probe_one_only_if_new_counterexample :
    cacheC6.bic_devs.map Dev.bid_pri = [3] ∧
    (∃ d ∈ cacheC6.bic_devs, d.bid_devno = 5) ∧
    dm_device_is_leaf envC6 5 = false ∧
    (probe_one envC6 cacheC6 "mapper/foo" 5 7 true).bic_devs.map Dev.bid_pri = [7] := by
  refine ⟨rfl, by decide, rfl, rfl⟩

/-- Claim C5 (amended): with a zero priority hint, whatever record
probe_one resolves (through any of its paths — cache match kept after
verification, directory-loop adoption, or a created record) is assigned
exactly the reserved RAID priority when the short name begins with "md";
only the hinted-record field changes. -/
theorem probe_one_md_zero_hint : ∀ (env : Env) (c : Cache) (pt : String)
    (devno : Nat) (oin : Bool) (c1 : Cache) (i : Nat),
    str_starts pt "md" = true →
    probe_one_core env c pt devno oin = POutcome.setpri c1 (some i) →
    (probe_one env c pt devno 0 oin).bic_devs[i]?
      = (c1.bic_devs[i]?).map (fun d => { d with bid_pri := BLKID_PRI_MD }) := by
  intro env c pt devno oin c1 i hmd hcore
  rw [probe_one, hcore]
  simp only [set_pri_apply, hmd, Bool.and_true, beq_self_eq_true, if_pos]
  cases hg : c1.bic_devs[i]? with
  | none => simp [hg]
  | some d => simp [hg, getElem?_set_self_map]

/-- Witness for probe_one_md_zero_hint: probing md0 (devno 9) from the
empty cache in envMd creates /dev/md0 at index 0 and assigns it the RAID
priority. -/
theorem probe_one_md_zero_hint_witness :
    str_starts "md0" "md" = true ∧
    probe_one_core envMd emptyCache "md0" 9 false = POutcome.setpri cacheMd1 (some 0) ∧
    (probe_one envMd emptyCache "md0" 9 0 false).bic_devs[0]?
      = (cacheMd1.bic_devs[0]?).map (fun d => { d with bid_pri := BLKID_PRI_MD }) :=
  ⟨rfl, rfl, probe_one_md_zero_hint envMd emptyCache "md0" 9 false cacheMd1 0 rfl rfl⟩

/-- Counterexample to claim C5 as stated: for the RAID-shaped short name
md0 with the non-zero priority hint 7, the resolved record's priority is
the hint 7, not the reserved RAID priority — the reserved value is used
only when the hint is zero. -/
theorem probe_one_md_nonzero_hint_counterexample :
    (probe_one envMd emptyCache "md0" 9 7 false).bic_devs.map Dev.bid_pri = [7] ∧
    (7 : Int) ≠ BLKID_PRI_MD :=
  ⟨rfl, by decide⟩

/-- A failed linear scan means no element satisfies the test. -/
theorem find_idx_eq_none : ∀ (p : Dev → Bool) (l : List Dev),
    find_idx p l = none ↔ ∀ d ∈ l, p d = false := by
  intro p l
  induction l with
  | nil => simp [find_idx]
  | cons d rest ih =>
    rw [find_idx]
    by_cases hd : p d = true
    · simp [hd]
    · have hd' : p d = false := by simpa using hd
      constructor
      · intro h
        simp [hd'] at h
        intro x hx
        rw [List.mem_cons] at hx
        rcases hx with hh | hh
        · subst hh; exact hd'
        · exact (ih.mp (by cases hf : find_idx p rest with
            | none => rfl
            | some j => rw [hf] at h; simp at h)) x hh
      · intro h
        have : find_idx p rest = none := ih.mpr (fun x hx => h x (List.mem_cons_of_mem _ hx))
        simp [hd', this]

/-- Appending an element that satisfies the test to a list where the scan
fails makes the scan find it at the old length. -/
theorem find_idx_append_hit : ∀ (p : Dev → Bool) (l : List Dev) (x : Dev),
    find_idx p l = none → p x = true →
    find_idx p (l ++ [x]) = some l.length := by
  intro p l x hnone hx
  induction l with
  | nil => simp [find_idx, hx]
  | cons d rest ih =>
    rw [List.cons_append]
    rw [find_idx] at hnone ⊢
    by_cases hd : p d = true
    · simp [hd] at hnone
    · have hd' : p d = false := by simpa using hd
      simp only [hd', Bool.false_eq_true, if_false] at hnone ⊢
      have hrest : find_idx p rest = none := by
        cases hf : find_idx p rest with
        | none => rfl
        | some j => rw [hf] at hnone; simp at hnone
      rw [ih hrest]
      simp [List.length_cons]

/-- Claim C8: find-or-create is idempotent — a second create-enabled call
with the same name returns the same cache and the same record index (so no
second record is created and the cache, including its flags, is
untouched); a create-enabled call preserves name uniqueness; and a lookup
of an unknown name with create disabled returns nothing and leaves the
cache unchanged. Verification is disabled in these calls (BLKID_DEV_CREATE
and BLKID_DEV_FIND respectively). -/
theorem blkid_get_dev_idempotent : ∀ (env : Env) (c : Cache) (n : String),
    blkid_get_dev env (blkid_get_dev env c n true false).1 n true false
      = blkid_get_dev env c n true false
  ∧ (NamesNodup c → NamesNodup (blkid_get_dev env c n true false).1)
  ∧ ((∀ d ∈ c.bic_devs, d.bid_name ≠ n) →
      blkid_get_dev env c n false false = (c, none)) := by
  intro env c n
  refine ⟨?_, ?_, ?_⟩
  · cases hf : find_by_name c n with
    | some i =>
      simp [blkid_get_dev, hf]
    | none =>
      have hnone : find_idx (fun d => d.bid_name == n) c.bic_devs = none := hf
      have hhit := find_idx_append_hit (fun d => d.bid_name == n) c.bic_devs
        ⟨n, 0, 0, INT_MIN⟩ hnone (by simp)
      simp only [blkid_get_dev, hf, if_pos, if_false, Bool.false_eq_true]
      simp only [find_by_name]
      simp [hhit]
  · intro hnodup
    cases hf : find_by_name c n with
    | some i => simpa [blkid_get_dev, hf] using hnodup
    | none =>
      have hnone : ∀ d ∈ c.bic_devs, (d.bid_name == n) = false :=
        (find_idx_eq_none _ _).mp hf
      have hnotmem : n ∉ c.bic_devs.map Dev.bid_name := by
        intro hmem
        rw [List.mem_map] at hmem
        obtain ⟨d, hd, hdn⟩ := hmem
        have := hnone d hd
        rw [hdn] at this
        simp at this
      simp only [blkid_get_dev, hf]
      simp only [NamesNodup] at hnodup ⊢
      simp [List.nodup_append, hnodup, hnotmem]
  · intro hmiss
    have hf : find_by_name c n = none := by
      apply (find_idx_eq_none _ _).mpr
      intro d hd
      have := hmiss d hd
      simpa using this
    simp [blkid_get_dev, hf]

/-- Witness for blkid_get_dev_idempotent on a concrete one-record cache and
the fresh name /dev/sdb. -/
theorem blkid_get_dev_idempotent_witness :
    blkid_get_dev envTriv (blkid_get_dev envTriv cacheC8 "/dev/sdb" true false).1
        "/dev/sdb" true false
      = blkid_get_dev envTriv cacheC8 "/dev/sdb" true false
  ∧ NamesNodup (blkid_get_dev envTriv cacheC8 "/dev/sdb" true false).1
  ∧ blkid_get_dev envTriv cacheC8 "/dev/sdb" false false = (cacheC8, none) := by
  have h := blkid_get_dev_idempotent envTriv cacheC8 "/dev/sdb"
  exact ⟨h.1, h.2.1 (by decide), h.2.2 (by decide)⟩

/-- A decimal digit is not a scanf whitespace character. -/
theorem isDigit_not_space : ∀ c : Char, c.isDigit = true → cIsSpace c = false := by
  intro c h
  cases hx : cIsSpace c
  · rfl
  · exfalso
    simp only [cIsSpace, Bool.or_eq_true, decide_eq_true_eq] at hx
    rcases hx with ((((h1 | h1) | h1) | h1) | h1) | h1 <;> rw [h1] at h <;>
      exact absurd h (by decide)

/-- A character that is not whitespace is accepted by the device
scanset. -/
theorem scanOk_of_not_space : ∀ c : Char, cIsSpace c = false → scanOk c = true := by
  intro c h
  have h1 : ¬ (c = '\n') := fun e => by rw [e] at h; exact absurd h (by decide)
  have h2 : ¬ (c = ' ') := fun e => by rw [e] at h; exact absurd h (by decide)
  simp [scanOk, h1, h2]

/-- The head of a list with a pointwise property satisfies it. -/
theorem head_all : ∀ (l : List Char) (P : Char → Prop),
    (∀ c ∈ l, P c) → ∀ c, l.head? = some c → P c := by
  intro l P h c hc
  cases l with
  | nil => simp at hc
  | cons a t =>
    simp only [List.head?_cons, Option.some.injEq] at hc
    subst hc
    exact h a (List.mem_cons_self _ _)

/-- The head of a nonempty run with a pointwise property satisfies it,
also below an appended remainder. -/
theorem head_of_append : ∀ (f rest : List Char) (P : Char → Prop),
    f ≠ [] → (∀ c ∈ f, P c) → ∀ c, (f ++ rest).head? = some c → P c := by
  intro f rest P hne hall c hc
  cases f with
  | nil => exact absurd rfl hne
  | cons a t =>
    rw [List.cons_append] at hc
    simp only [List.head?_cons, Option.some.injEq] at hc
    subst hc
    exact hall a (List.mem_cons_self _ _)

/-- Whitespace skipping is the identity when the input does not begin
with whitespace. -/
theorem skipWs_of_head_not_space : ∀ (l : List Char),
    (∀ c, l.head? = some c → cIsSpace c = false) → skipWs l = l := by
  intro l h
  cases l with
  | nil => rfl
  | cons a t =>
    have := h a (by simp)
    simp [skipWs, List.dropWhile_cons, this]

/-- A format blank consumes a leading space. -/
theorem skipWs_cons_space : ∀ (cs : List Char), skipWs (' ' :: cs) = skipWs cs :=
  fun _ => rfl

/-- Below a leading space, the head is a space. -/
theorem head_space_is_space : ∀ (X : List Char) (c : Char),
    (' ' :: X).head? = some c → cIsSpace c = true := by
  intro X c hc
  simp only [List.head?_cons, Option.some.injEq] at hc
  subst hc
  decide

/-- A space is not a digit, so an integer conversion stops at it. -/
theorem head_space_not_digit : ∀ (X : List Char) (c : Char),
    (' ' :: X).head? = some c → c.isDigit = false := by
  intro X c hc
  simp only [List.head?_cons, Option.some.injEq] at hc
  subst hc
  decide

/-- A list starting with a nonempty run is not empty. -/
theorem isEmpty_append_of_ne_nil : ∀ (f rest : List Char),
    f ≠ [] → (f ++ rest).isEmpty = false := by
  intro f rest hne
  cases f with
  | nil => exact absurd rfl hne
  | cons a t => rfl

/-- A nonempty list is not empty. -/
theorem isEmpty_of_ne_nil : ∀ (l : List Char), l ≠ [] → l.isEmpty = false := by
  intro l hne
  cases l with
  | nil => exact absurd rfl hne
  | cons a t => rfl

/-- takeDigits splits off a leading all-digit run exactly when the
remainder does not begin with a digit. -/
theorem takeDigits_append : ∀ (ds rest : List Char),
    (∀ c ∈ ds, c.isDigit = true) →
    (∀ c, rest.head? = some c → c.isDigit = false) →
    takeDigits (ds ++ rest) = (ds, rest) := by
  intro ds rest hds hrest
  induction ds with
  | nil =>
    simp only [List.nil_append]
    cases rest with
    | nil => rfl
    | cons c r =>
      have := hrest c (by simp)
      rw [takeDigits]
      simp [this]
  | cons d ds' ih =>
    have hd : d.isDigit = true := hds d (List.mem_cons_self _ _)
    rw [List.cons_append, takeDigits]
    simp only [hd, if_true]
    rw [ih (fun c hc => hds c (List.mem_cons_of_mem _ hc))]

/-- parseNatPrefix reads exactly a leading nonempty digit run. -/
theorem parseNatPrefix_digits : ∀ (ds rest : List Char),
    ds ≠ [] → (∀ c ∈ ds, c.isDigit = true) →
    (∀ c, rest.head? = some c → c.isDigit = false) →
    parseNatPrefix (ds ++ rest) = some (digitsToNat ds, rest) := by
  intro ds rest hne hds hrest
  simp only [parseNatPrefix]
  rw [takeDigits_append ds rest hds hrest]
  cases ds with
  | nil => exact absurd rfl hne
  | cons d ds' => rfl

/-- A %d conversion on input beginning with a digit run reads exactly
that run (no sign present). -/
theorem parseIntPrefix_digits : ∀ (ds rest : List Char),
    ds ≠ [] → (∀ c ∈ ds, c.isDigit = true) →
    (∀ c, rest.head? = some c → c.isDigit = false) →
    parseIntPrefix (ds ++ rest) = some ((digitsToNat ds : Int), rest) := by
  intro ds rest hne hds hrest
  cases ds with
  | nil => exact absurd rfl hne
  | cons d ds' =>
    have hd : d.isDigit = true := hds d (List.mem_cons_self _ _)
    have h1 : ¬ (d = '-') := fun e => by rw [e] at hd; exact absurd hd (by decide)
    have h2 : ¬ (d = '+') := fun e => by rw [e] at hd; exact absurd hd (by decide)
    rw [List.cons_append, parseIntPrefix, if_neg h1, if_neg h2, ← List.cons_append,
      parseNatPrefix_digits (d :: ds') rest hne hds hrest]
    rfl

/-- A %s conversion consumes a maximal nonempty non-whitespace field,
leaving the whitespace-headed remainder. -/
theorem dropField_append : ∀ (f rest : List Char),
    (∀ c ∈ f, cIsSpace c = false) →
    (∀ c, rest.head? = some c → cIsSpace c = true) →
    (f ++ rest).dropWhile (fun c => ! cIsSpace c) = rest := by
  intro f rest hf hrest
  induction f with
  | nil =>
    simp only [List.nil_append]
    cases rest with
    | nil => rfl
    | cons c r =>
      have := hrest c (by simp)
      simp [List.dropWhile_cons, this]
  | cons a f' ih =>
    have ha := hf a (List.mem_cons_self _ _)
    rw [List.cons_append]
    simp only [List.dropWhile_cons, ha, Bool.not_false, if_true]
    exact ih (fun c hc => hf c (List.mem_cons_of_mem _ hc))

/-- A scanset capture takes a whole run of accepted characters. -/
theorem takeWhile_scanOk_all : ∀ (l : List Char),
    (∀ c ∈ l, scanOk c = true) → l.takeWhile scanOk = l := by
  intro l h
  induction l with
  | nil => rfl
  | cons a r ih =>
    simp only [List.takeWhile_cons, h a (List.mem_cons_self _ _), if_true]
    rw [ih (fun c hc => h c (List.mem_cons_of_mem _ hc))]

/-- A well-formed volume-report line — three nonempty digit fields, two
nonempty arbitrary non-whitespace fields and a nonempty non-whitespace
device field, separated by single blanks — is accepted by the scan, its
numeric values read and its sixth field captured as the device path. -/
theorem evms_wellformed_accept : ∀ (d1 d2 d3 f4 f5 dev : List Char),
    d1 ≠ [] → (∀ c ∈ d1, c.isDigit = true) →
    d2 ≠ [] → (∀ c ∈ d2, c.isDigit = true) →
    d3 ≠ [] → (∀ c ∈ d3, c.isDigit = true) →
    f4 ≠ [] → (∀ c ∈ f4, cIsSpace c = false) →
    f5 ≠ [] → (∀ c ∈ f5, cIsSpace c = false) →
    dev ≠ [] → (∀ c ∈ dev, cIsSpace c = false) →
    evms_parse_line (String.mk
        (d1 ++ ' ' :: (d2 ++ ' ' :: (d3 ++ ' ' :: (f4 ++ ' ' :: (f5 ++ ' ' :: dev))))))
      = some ((digitsToNat d1 : Int), (digitsToNat d2 : Int), (digitsToNat d3 : Int),
          dev.asString) := by
  intro d1 d2 d3 f4 f5 dev h1 h1d h2 h2d h3 h3d h4 h4f h5 h5f h6 h6f
  have hdig : ∀ (ds : List Char), (∀ c ∈ ds, c.isDigit = true) →
      ∀ c ∈ ds, cIsSpace c = false :=
    fun ds h c hc => isDigit_not_space c (h c hc)
  have hA1 : skipWs (d1 ++ ' ' :: (d2 ++ ' ' :: (d3 ++ ' ' ::
        (f4 ++ ' ' :: (f5 ++ ' ' :: dev)))))
      = d1 ++ ' ' :: (d2 ++ ' ' :: (d3 ++ ' ' :: (f4 ++ ' ' :: (f5 ++ ' ' :: dev)))) :=
    skipWs_of_head_not_space _ (head_of_append d1 _ _ h1 (hdig d1 h1d))
  have hB1 : parseIntPrefix (d1 ++ ' ' :: (d2 ++ ' ' :: (d3 ++ ' ' ::
        (f4 ++ ' ' :: (f5 ++ ' ' :: dev)))))
      = some ((digitsToNat d1 : Int),
          ' ' :: (d2 ++ ' ' :: (d3 ++ ' ' :: (f4 ++ ' ' :: (f5 ++ ' ' :: dev))))) :=
    parseIntPrefix_digits d1 _ h1 h1d (head_space_not_digit _)
  have hA2 : skipWs (d2 ++ ' ' :: (d3 ++ ' ' :: (f4 ++ ' ' :: (f5 ++ ' ' :: dev))))
      = d2 ++ ' ' :: (d3 ++ ' ' :: (f4 ++ ' ' :: (f5 ++ ' ' :: dev))) :=
    skipWs_of_head_not_space _ (head_of_append d2 _ _ h2 (hdig d2 h2d))
  have hB2 : parseIntPrefix (d2 ++ ' ' :: (d3 ++ ' ' :: (f4 ++ ' ' :: (f5 ++ ' ' :: dev))))
      = some ((digitsToNat d2 : Int),
          ' ' :: (d3 ++ ' ' :: (f4 ++ ' ' :: (f5 ++ ' ' :: dev)))) :=
    parseIntPrefix_digits d2 _ h2 h2d (head_space_not_digit _)
  have hA3 : skipWs (d3 ++ ' ' :: (f4 ++ ' ' :: (f5 ++ ' ' :: dev)))
      = d3 ++ ' ' :: (f4 ++ ' ' :: (f5 ++ ' ' :: dev)) :=
    skipWs_of_head_not_space _ (head_of_append d3 _ _ h3 (hdig d3 h3d))
  have hB3 : parseIntPrefix (d3 ++ ' ' :: (f4 ++ ' ' :: (f5 ++ ' ' :: dev)))
      = some ((digitsToNat d3 : Int), ' ' :: (f4 ++ ' ' :: (f5 ++ ' ' :: dev))) :=
    parseIntPrefix_digits d3 _ h3 h3d (head_space_not_digit _)
  have hA4 : skipWs (f4 ++ ' ' :: (f5 ++ ' ' :: dev))
      = f4 ++ ' ' :: (f5 ++ ' ' :: dev) :=
    skipWs_of_head_not_space _ (head_of_append f4 _ _ h4 h4f)
  have hE4 : (f4 ++ ' ' :: (f5 ++ ' ' :: dev)).isEmpty = false :=
    isEmpty_append_of_ne_nil f4 _ h4
  have hD4 : (f4 ++ ' ' :: (f5 ++ ' ' :: dev)).dropWhile (fun c => ! cIsSpace c)
      = ' ' :: (f5 ++ ' ' :: dev) :=
    dropField_append f4 _ h4f (head_space_is_space _)
  have hA5 : skipWs (f5 ++ ' ' :: dev) = f5 ++ ' ' :: dev :=
    skipWs_of_head_not_space _ (head_of_append f5 _ _ h5 h5f)
  have hE5 : (f5 ++ ' ' :: dev).isEmpty = false := isEmpty_append_of_ne_nil f5 _ h5
  have hD5 : (f5 ++ ' ' :: dev).dropWhile (fun c => ! cIsSpace c) = ' ' :: dev :=
    dropField_append f5 _ h5f (head_space_is_space _)
  have hA6 : skipWs dev = dev :=
    skipWs_of_head_not_space _ (head_all dev _ h6f)
  have hT : dev.takeWhile scanOk = dev :=
    takeWhile_scanOk_all dev (fun c hc => scanOk_of_not_space c (h6f c hc))
  have hE6 : dev.isEmpty = false := isEmpty_of_ne_nil dev h6
  simp only [evms_parse_line, hA1, hB1, skipWs_cons_space, hA2, hB2, hA3, hB3, hA4,
    hE4, hD4, hA5, hE5, hD5, hA6, hT, hE6, Bool.false_eq_true, if_false]

/-- Claim C9 (amended): a line is accepted — and fed to the Single-Device
Resolver with the reserved volume-report priority — exactly when the
fixed-format scan succeeds on it: three integer conversions (each an
optional sign and at least one digit, stopping at the first non-digit),
two further nonempty whitespace-delimited fields, and a nonempty final
capture extending to the next space or newline, which becomes the device
path. The prober's invocation trace is precisely the accepted lines with
their captured device, makedev number and the reserved priority; every
well-formed line of six blank-separated fields with numeric first three
is accepted with its sixth field as the device path; and every line on
which some conversion fails is silently skipped. Token counts do not
govern acceptance: a conversion can stop mid-token and trailing input is
never required to be consumed. -/
theorem evms_scan_acceptance :
    (∀ (env : Env) (oin : Bool) (ls : List String) (c : Cache),
      (evms_run env oin ls c).2 = ls.filterMap (fun line => (evms_parse_line line).map
        (fun q => (q.2.2.2, makedevZ q.1 q.2.1, BLKID_PRI_EVMS))))
  ∧ (∀ (d1 d2 d3 f4 f5 dev : List Char),
      d1 ≠ [] → (∀ c ∈ d1, c.isDigit = true) →
      d2 ≠ [] → (∀ c ∈ d2, c.isDigit = true) →
      d3 ≠ [] → (∀ c ∈ d3, c.isDigit = true) →
      f4 ≠ [] → (∀ c ∈ f4, cIsSpace c = false) →
      f5 ≠ [] → (∀ c ∈ f5, cIsSpace c = false) →
      dev ≠ [] → (∀ c ∈ dev, cIsSpace c = false) →
      evms_parse_line (String.mk
          (d1 ++ ' ' :: (d2 ++ ' ' :: (d3 ++ ' ' :: (f4 ++ ' ' :: (f5 ++ ' ' :: dev))))))
        = some ((digitsToNat d1 : Int), (digitsToNat d2 : Int), (digitsToNat d3 : Int),
            dev.asString)) := by
  constructor
  · intro env oin ls
    induction ls with
    | nil => intro c; rfl
    | cons t rest ih =>
      intro c
      cases h : evms_parse_line t with
      | none => simp [evms_run, h, ih]
      | some q => simp [evms_run, h, ih]
  · exact evms_wellformed_accept

/-- Witness for evms_scan_acceptance: the canonical six-field line
"8 1 100 x y /dev/evms/v" is accepted with values 8, 1, 100 and device
path /dev/evms/v. -/
theorem evms_scan_acceptance_witness :
    evms_parse_line (String.mk
        ("8".data ++ ' ' :: ("1".data ++ ' ' :: ("100".data ++ ' ' ::
          ("x".data ++ ' ' :: ("y".data ++ ' ' :: "/dev/evms/v".data))))))
      = some ((digitsToNat "8".data : Int), (digitsToNat "1".data : Int),
          (digitsToNat "100".data : Int), "/dev/evms/v".data.asString) :=
  evms_scan_acceptance.2 "8".data "1".data "100".data "x".data "y".data "/dev/evms/v".data
    (by decide) (by decide) (by decide) (by decide) (by decide) (by decide)
    (by decide) (by decide) (by decide) (by decide) (by decide) (by decide)

/-- Counterexample to claim C9 as stated: the seven-token line is
accepted with trailing tokens ignored; the five-token line
"8 1 100abc a /dev/x" is accepted because the third integer conversion
stops at the first non-digit and the suppressed conversions consume the
remainder; and the six-token line "8 1 12.5 a b /dev/x" is accepted with
its fifth token b — not the sixth — captured as the device path. The
space counts witness the token counts of the three lines (7, 5 and 6). -/
theorem evms_token_shape_counterexample :
    (evms_probe_all envC9 emptyCache false).2
      = [("/dev/evms/v", makedevZ 8 1, BLKID_PRI_EVMS),
         ("/dev/x", makedevZ 8 1, BLKID_PRI_EVMS),
         ("b", makedevZ 8 1, BLKID_PRI_EVMS)] ∧
    ("8 1 100 a b /dev/evms/v extra".data.filter (fun c => c == ' ')).length = 6 ∧
    ("8 1 100abc a /dev/x".data.filter (fun c => c == ' ')).length = 4 ∧
    ("8 1 12.5 a b /dev/x".data.filter (fun c => c == ' ')).length = 5 :=
  ⟨rfl, rfl, rfl, rfl⟩

/-- findSome? over a list on which the function is constantly none. -/
theorem findSome?_all_none {α β : Type} (f : α → Option β) :
    ∀ l : List α, (∀ x ∈ l, f x = none) → l.findSome? f = none := by
  intro l h
  induction l with
  | nil => rfl
  | cons a rest ih =>
    rw [List.findSome?_cons, h a (List.mem_cons_self a rest)]
    exact ih (fun x hx => h x (List.mem_cons_of_mem a hx))

/-- Every non-dot logical volume of the inner loop contributes its
invocation to the trace, whatever the starting cache. -/
theorem lvm_lv_run_mem : ∀ (env : Env) (oin : Bool) (vgname : String)
    (lvs : List LV) (lv : LV),
    lv ∈ lvs → lv.name ≠ "." → lv.name ≠ ".." →
    ∀ c, (vgname ++ "/" ++ lv.name, lvm_get_devno lv.file, BLKID_PRI_LVM)
        ∈ (lvm_lv_run env oin vgname lvs c).2 := by
  intro env oin vgname lvs lv
  induction lvs with
  | nil => intro h _ _ _; simp at h
  | cons x rest ih =>
    intro hmem h1 h2 c
    rw [List.mem_cons] at hmem
    rw [lvm_lv_run]
    by_cases hdot : (x.name == "." || x.name == "..") = true
    · have hlvrest : lv ∈ rest := by
        rcases hmem with h | h
        · subst h
          simp only [Bool.or_eq_true, beq_iff_eq] at hdot
          rcases hdot with hh | hh
          · exact absurd hh h1
          · exact absurd hh h2
        · exact h
      simp only [hdot, if_pos]
      exact ih hlvrest h1 h2 c
    · have hdot' : (x.name == "." || x.name == "..") = false := by simpa using hdot
      simp only [hdot', Bool.false_eq_true, if_false]
      rcases hmem with h | h
      · subst h
        exact List.mem_cons_self _ _
      · exact List.mem_cons_of_mem _ (ih h h1 h2 _)

/-- Every non-dot volume of a non-dot group with a readable LVs directory
contributes its invocation to the outer loop's trace. -/
theorem lvm_vg_run_mem : ∀ (env : Env) (oin : Bool) (vgs : List VG) (vg : VG)
    (lvs : List LV) (lv : LV),
    vg ∈ vgs → vg.name ≠ "." → vg.name ≠ ".." → vg.lvs = some lvs →
    lv ∈ lvs → lv.name ≠ "." → lv.name ≠ ".." →
    ∀ c, (vg.name ++ "/" ++ lv.name, lvm_get_devno lv.file, BLKID_PRI_LVM)
        ∈ (lvm_vg_run env oin vgs c).2 := by
  intro env oin vgs vg lvs lv
  induction vgs with
  | nil => intro h _ _ _ _ _ _ _; simp at h
  | cons y rest ih =>
    intro hmem hv1 hv2 hlvs hlmem hl1 hl2 c
    rw [List.mem_cons] at hmem
    rw [lvm_vg_run]
    by_cases hdot : (y.name == "." || y.name == "..") = true
    · have hvgrest : vg ∈ rest := by
        rcases hmem with h | h
        · subst h
          simp only [Bool.or_eq_true, beq_iff_eq] at hdot
          rcases hdot with hh | hh
          · exact absurd hh hv1
          · exact absurd hh hv2
        · exact h
      simp only [hdot, if_pos]
      exact ih hvgrest hv1 hv2 hlvs hlmem hl1 hl2 c
    · have hdot' : (y.name == "." || y.name == "..") = false := by simpa using hdot
      simp only [hdot', Bool.false_eq_true, if_false]
      rcases hmem with h | h
      · subst h
        rw [hlvs]
        exact List.mem_append_left _ (lvm_lv_run_mem env oin vg.name lvs lv hlmem hl1 hl2 c)
      · cases hylvs : y.lvs with
        | none => exact ih h hv1 hv2 hlvs hlmem hl1 hl2 c
        | some ylvs =>
          exact List.mem_append_right _ (ih h hv1 hv2 hlvs hlmem hl1 hl2 _)

/-- Claim C4 (amended): a logical-volume metadata file with no line
matching `device: <major>:<minor>` yields device number 0, but the volume
is not skipped — the Single-Device Resolver is still invoked for it, with
device number 0 and the reserved legacy-volume priority. -/
theorem lvm_no_device_line : ∀ (env : Env) (oin : Bool) (c : Cache)
    (vgs : List VG) (vg : VG) (lvs : List LV) (lv : LV) (lines : List String),
    env.lvmVGs = some vgs →
    vg ∈ vgs → vg.name ≠ "." → vg.name ≠ ".." → vg.lvs = some lvs →
    lv ∈ lvs → lv.name ≠ "." → lv.name ≠ ".." →
    lv.file = some lines →
    (∀ l ∈ lines, parse_lvm_device_line l = none) →
    lvm_get_devno lv.file = 0 ∧
    (vg.name ++ "/" ++ lv.name, 0, BLKID_PRI_LVM) ∈ (lvm_probe_all env c oin).2 := by
  intro env oin c vgs vg lvs lv lines henv hvmem hv1 hv2 hlvs hlmem hl1 hl2 hfile hnone
  have hz : lvm_get_devno lv.file = 0 := by
    rw [hfile, lvm_get_devno, findSome?_all_none parse_lvm_device_line lines hnone]
  refine ⟨hz, ?_⟩
  have hm := lvm_vg_run_mem env oin vgs vg lvs lv hvmem hv1 hv2 hlvs hlmem hl1 hl2 c
  rw [hz] at hm
  rw [lvm_probe_all, henv]
  exact hm

/-- Witness for lvm_no_device_line on the concrete vg0/lv0 fixture whose
metadata file holds only the line "junk". -/
theorem lvm_no_device_line_witness :
    lvm_get_devno (some ["junk"]) = 0 ∧
    ("vg0/lv0", 0, BLKID_PRI_LVM) ∈ (lvm_probe_all envC4 emptyCache false).2 := by
  have h := lvm_no_device_line envC4 false emptyCache
    [⟨"vg0", some [⟨"lv0", some ["junk"]⟩]⟩]
    ⟨"vg0", some [⟨"lv0", some ["junk"]⟩]⟩
    [⟨"lv0", some ["junk"]⟩] ⟨"lv0", some ["junk"]⟩ ["junk"]
    rfl (by decide) (by decide) (by decide) rfl (by decide) (by decide) (by decide)
    rfl (by decide)
  exact h

/-- Counterexample to claim C4 as stated: for the volume vg0/lv0 whose
metadata file contains no `device:` line, the prober still invokes
probe_one — the trace is not empty but contains exactly the invocation for
that volume with device number 0. -/
theorem lvm_zero_devno_counterexample :
    lvm_get_devno (some ["junk"]) = 0 ∧
    (lvm_probe_all envC4 emptyCache false).2 = [("vg0/lv0", 0, BLKID_PRI_LVM)] :=
  ⟨rfl, rfl⟩

/-- Shared staleness-guard fact: when the cache is flagged fully probed and
less than the freshness window has elapsed, blkid_probe_all consults no
source and merely re-stamps the probe time and flag, returning 0. -/
theorem fresh_blkid_probe_all_immediate : ∀ (env : Env) (c : Cache),
    c.bic_probed = true →
    env.now - c.bic_time < BLKID_PROBE_INTERVAL →
    blkid_probe_all env c = ({ c with bic_time := env.now, bic_probed := true }, 0, []) := by
  intro env c h1 h2
  rw [blkid_probe_all, probe_all]
  rw [if_pos ⟨h1, h2⟩]

/-- Claim C1 (amended): blkid_probe_all passes only_if_new = 0 but offers
no forced refresh — it is subject to the same staleness guard as the rest:
for every cache whose fully-probed flag is set with less than the
freshness window elapsed since the last full probe, it returns 0
immediately, consults no source (empty invocation trace, no prober runs),
and only re-stamps the probe time and flag. -/
theorem blkid_probe_all_not_forced : ∀ (env : Env) (c : Cache),
    c.bic_probed = true →
    env.now - c.bic_time < BLKID_PROBE_INTERVAL →
    blkid_probe_all env c = ({ c with bic_time := env.now, bic_probed := true }, 0, []) :=
  fun env c h1 h2 => fresh_blkid_probe_all_immediate env c h1 h2

/-- Witness for blkid_probe_all_not_forced at the concrete fresh cache
cacheC1 (probed at 100, queried at 150). -/
theorem blkid_probe_all_not_forced_witness :
    cacheC1.bic_probed = true ∧
    envC1.now - cacheC1.bic_time < BLKID_PROBE_INTERVAL ∧
    blkid_probe_all envC1 cacheC1
      = ({ cacheC1 with bic_time := envC1.now, bic_probed := true }, 0, []) :=
  ⟨rfl, by decide, blkid_probe_all_not_forced envC1 cacheC1 rfl (by decide)⟩

/-- Counterexample to claim C1 as stated: in an environment whose
partition report holds a probe-able whole-disk line, blkid_probe_all on a
cache probed 50 seconds ago performs no enumeration at all (empty
invocation trace, success return), while the very same call on the same
cache with the fully-probed flag cleared does run the pass and probes sdb
— so the "forced, always-refresh" reading is false. -/
theorem blkid_probe_all_guard_counterexample :
    (blkid_probe_all envC1 cacheC1).2.2 = [] ∧
    (blkid_probe_all envC1 cacheC1).2.1 = 0 ∧
    (blkid_probe_all envC1 { cacheC1 with bic_probed := false }).2.2
      = [("sdb", makedev 8 16, 0)] :=
  ⟨rfl, rfl, rfl⟩

/-- Claim C10: blkid_probe_all stamps the cache's last-full-probe time
with the current time and sets the fully-probed flag unconditionally —
also when the pass fails because the mandatory partition report cannot be
opened (in which case the call returns the proc error) — and consequently
a repeat call within the freshness window returns 0 immediately with an
empty invocation trace, only re-stamping the cache. -/
theorem blkid_probe_all_stamps_unconditionally : ∀ (env : Env) (c : Cache),
    ((blkid_probe_all env c).1.bic_time = env.now ∧
     (blkid_probe_all env c).1.bic_probed = true)
  ∧ (env.procLines = none →
      ¬ (c.bic_probed = true ∧ env.now - c.bic_time < BLKID_PROBE_INTERVAL) →
      (blkid_probe_all env c).2.1 = -BLKID_ERR_PROC)
  ∧ (∀ env2 : Env, env2.now - env.now < BLKID_PROBE_INTERVAL →
      blkid_probe_all env2 (blkid_probe_all env c).1
        = ({ (blkid_probe_all env c).1 with bic_time := env2.now, bic_probed := true },
           0, [])) := by
  intro env c
  refine ⟨⟨rfl, rfl⟩, ?_, ?_⟩
  · intro hproc hguard
    rw [blkid_probe_all, probe_all, if_neg hguard, hproc]
  · intro env2 h2
    exact fresh_blkid_probe_all_immediate env2 (blkid_probe_all env c).1 rfl h2

/-- Witness for blkid_probe_all_stamps_unconditionally: with no readable
partition report at time 50 the failed pass still stamps the cache, and a
repeat call at time 60 returns 0 immediately without consulting any
source. -/
theorem blkid_probe_all_stamps_unconditionally_witness :
    ((blkid_probe_all envC10 emptyCache).1.bic_time = envC10.now ∧
     (blkid_probe_all envC10 emptyCache).1.bic_probed = true) ∧
    (blkid_probe_all envC10 emptyCache).2.1 = -BLKID_ERR_PROC ∧
    blkid_probe_all envC10b (blkid_probe_all envC10 emptyCache).1
      = ({ (blkid_probe_all envC10 emptyCache).1 with
            bic_time := envC10b.now, bic_probed := true }, 0, []) := by
  have h := blkid_probe_all_stamps_unconditionally envC10 emptyCache
  exact ⟨h.1, h.2.1 rfl (by decide), h.2.2 envC10b (by decide)⟩
